import Mathlib

/- Formal model of the ESP32-S3 freezer-monitor firmware
   (Temperature-Sensor.c): the bounded sample ring buffer, fault-aware
   EMA smoothing in the sensor task, endpoint health probing and
   selection, the delivery drain loop with per-status backpressure, and
   the ingest-staleness alarm.  Machine floats are modelled as exact
   rationals; times are Int microseconds or milliseconds as in the
   source. -/

/-- One queued measurement (struct reading_t): temperature in Celsius,
sensor fault bitmask `sr`, and UTC timestamp in milliseconds. -/
structure Reading where
  t_c : ℚ
  sr : Nat
  ts_ms_utc : Int
deriving DecidableEq

/-- Queue capacity (macro RB_CAP). -/
def RB_CAP : Nat := 16

/-- Ring-buffer state: the 16-slot array s_rb (modelled as a function on
indices; the code only ever reads or writes indices below RB_CAP), plus
the indices s_rb_head and s_rb_tail. -/
structure RBState where
  buf : Nat → Reading
  head : Nat
  tail : Nat

/-- rb_push: compute the next head; if the ring would be full, drop the
oldest entry by advancing the tail; store the reading at the old head
slot and advance the head.  The C function always returns true. -/
def rb_push (s : RBState) (r : Reading) : RBState :=
  let nhead := (s.head + 1) % RB_CAP
  let ntail := if nhead = s.tail then (s.tail + 1) % RB_CAP else s.tail
  { buf := fun i => if i = s.head then r else s.buf i, head := nhead, tail := ntail }

/-- rb_pop: if the buffer is non-empty (tail differs from head), return
the oldest entry and advance the tail; otherwise report empty. -/
def rb_pop (s : RBState) : Option Reading × RBState :=
  if s.tail ≠ s.head then
    (some (s.buf s.tail), { s with tail := (s.tail + 1) % RB_CAP })
  else
    (none, s)

/-- Index sanity invariant maintained by the code: head and tail stay
below RB_CAP. -/
def rb_valid (s : RBState) : Prop := s.head < RB_CAP ∧ s.tail < RB_CAP

instance (s : RBState) : Decidable (rb_valid s) := by
  unfold rb_valid; infer_instance

/-- Number of queued entries, as the head/tail distance. -/
def rb_size (s : RBState) : Nat := (s.head + RB_CAP - s.tail) % RB_CAP

/-- Abstraction: the queue contents, oldest first. -/
def rb_toList (s : RBState) : List Reading :=
  (List.range (rb_size s)).map (fun i => s.buf ((s.tail + i) % RB_CAP))

/-- Push a whole list of readings in order. -/
def rb_pushAll (s : RBState) (rs : List Reading) : RBState := rs.foldl rb_push s

/-- Startup buffer state: zeroed static array, head = tail = 0. -/
def rbInit : RBState := { buf := fun _ => ⟨0, 0, 0⟩, head := 0, tail := 0 }

/-- Abstract effect of one rb_push on the queue contents: drop the
oldest entry when 15 entries are held, then append. -/
def absPush (q : List Reading) (r : Reading) : List Reading :=
  (if q.length = 15 then q.drop 1 else q) ++ [r]

/-- The last n elements of a list. -/
def lastN (n : Nat) (l : List Reading) : List Reading := l.drop (l.length - n)

/-- Smoothing factor (macro SMOOTH_ALPHA = 0.25f, exact in binary32). -/
def SMOOTH_ALPHA : ℚ := 1 / 4

/-- Smoothing state of task_sensor: the statics s_have_filt and s_filt_c. -/
structure SmState where
  have_filt : Bool
  filt_c : ℚ
deriving DecidableEq

/-- Fault-aware smoothing step of task_sensor: on a fault-free reading
(sr = 0) seed or update the EMA and deliver the filtered value; on a
fault reading pass the raw value through and leave the EMA state alone.
Returns the new state and the delivered temperature use_c. -/
def sensor_smooth (st : SmState) (t : ℚ) (sr : Nat) : SmState × ℚ :=
  if sr = 0 then
    if st.have_filt = false then
      ({ have_filt := true, filt_c := t }, t)
    else
      let f := SMOOTH_ALPHA * t + (1 - SMOOTH_ALPHA) * st.filt_c
      ({ have_filt := st.have_filt, filt_c := f }, f)
  else
    (st, t)

/-- One successful iteration of task_sensor: smooth (or pass through)
the reading, timestamp it, and push it onto the ring buffer. -/
def task_sensor_step (st : SmState) (rb : RBState) (t : ℚ) (sr : Nat)
    (ts : Int) : SmState × RBState :=
  let p := sensor_smooth st t sr
  (p.1, rb_push rb { t_c := p.2, sr := sr, ts_ms_utc := ts })

/-- Run task_sensor over a list of fault-free readings (sr = 0),
collecting the delivered temperatures in order. -/
def runGood (st : SmState) : List ℚ → SmState × List ℚ
  | [] => (st, [])
  | t :: ts =>
    let p := sensor_smooth st t 0
    let q := runGood p.1 ts
    (q.1, p.2 :: q.2)

/-- Modelled from the spec: the EMA recurrence filtered = 0.25*t +
0.75*filtered applied left to right from a seed. -/
def emaFold (f : ℚ) (ts : List ℚ) : ℚ :=
  ts.foldl (fun a t => (1 / 4) * t + (3 / 4) * a) f

/-- Modelled from the spec: the successive values of the EMA recurrence
from a seed (one output per input reading). -/
def emaScan (f : ℚ) : List ℚ → List ℚ
  | [] => []
  | t :: ts => ((1 / 4) * t + (3 / 4) * f) :: emaScan ((1 / 4) * t + (3 / 4) * f) ts

/-- Outcome of one esp_http_client round trip as the code observes it:
client-initialization failure, esp_http_client_perform not returning
ESP_OK, or completion with an HTTP status code. -/
inductive HttpOutcome where
  | initFail : HttpOutcome
  | performErr : HttpOutcome
  | status : Int → HttpOutcome
deriving DecidableEq

/-- try_health_once: reachable iff the GET {base}/health call completed
and returned status 200 or 503; an init failure or a failed perform is
unreachable. -/
def try_health_once : HttpOutcome → Bool
  | .initFail => false
  | .performErr => false
  | .status sc => decide (sc = 200 ∨ sc = 503)

/-- The two configured endpoints (URL_LOCAL and URL_CLOUD). -/
inductive BaseUrl where
  | urlLocal : BaseUrl
  | urlCloud : BaseUrl
deriving DecidableEq

/-- The pair of globals s_base_url (none while the string is empty) and
s_use_tls. -/
structure UrlState where
  base : Option BaseUrl
  useTls : Bool
deriving DecidableEq

/-- pick_base_url: try the local server first (plain transport), then
the cloud server (TLS); if neither answers and no base is set yet,
default to the cloud with TLS. -/
def pick_base_url (localOk cloudOk : Bool) (st : UrlState) : UrlState :=
  if localOk then ⟨some .urlLocal, false⟩
  else if cloudOk then ⟨some .urlCloud, true⟩
  else if st.base = none then ⟨some .urlCloud, true⟩
  else st

/-- Reachability of each endpoint during startup, as a fixed environment
consulted by every health probe (a probe of the local endpoint answers
localOk, a probe of the cloud endpoint answers cloudOk). -/
def try_health_env (localOk cloudOk : Bool) : BaseUrl → Bool
  | .urlLocal => localOk
  | .urlCloud => cloudOk

/-- Startup sequence of app_main: pick_base_url from the empty base,
then set s_server_ok by probing the selected base once more.  Returns
the selected UrlState and s_server_ok. -/
def startup_select (localOk cloudOk : Bool) : UrlState × Bool :=
  let st := pick_base_url localOk cloudOk ⟨none, false⟩
  (st, try_health_env localOk cloudOk (st.base.getD .urlCloud))

/-- Endpoint-selection state used by the running delivery worker:
s_base_url (always set by then), s_use_tls and the static counter of
maybe_prefer_local_again. -/
structure SelState where
  base : BaseUrl
  useTls : Bool
  counter : Nat
deriving DecidableEq

/-- maybe_prefer_local_again: increment the static counter and return
immediately unless it reached a multiple of 5; on every 5th call, if the
active base is not the local one, probe the local server (plain
transport) and, if reachable, switch to it and drop TLS.  The Bool
result records whether the local probe was issued. -/
def maybe_prefer_local_again (localOk : Bool) (st : SelState) : SelState × Bool :=
  let c := st.counter + 1
  if c % 5 ≠ 0 then
    ({ st with counter := c }, false)
  else if st.base ≠ .urlLocal then
    if localOk then
      ({ base := .urlLocal, useTls := false, counter := c }, true)
    else
      ({ st with counter := c }, true)
  else
    ({ st with counter := c }, false)

/-- Iterate the health-cycle hook n times (one call per health cycle). -/
def iterPrefer (localOk : Bool) : Nat → SelState → SelState
  | 0, st => st
  | n + 1, st => iterPrefer localOk n (maybe_prefer_local_again localOk st).1

/-- State threaded through the drain loop of task_net: the ring buffer,
s_last_ingest_ok_us, and the local counter sent. -/
structure DrainState where
  rb : RBState
  lastIngestOk : Int
  sent : Nat

/-- The drain loop of task_net: pop queued readings and POST them.
post k is the status of the k-th POST attempt of this cycle (negative
when the call did not complete) and timeAt k the esp_timer time observed
on its success.  Status 200 records the success time and continues;
a 5xx status or a transport error requeues the sample with rb_push and
stops; 401/403 and any other 4xx drop the sample and continue; anything
else requeues and stops.  The fuel argument only bounds the recursion:
every continuing iteration pops one entry, and the queue holds at most
RB_CAP - 1 entries, so fuel = RB_CAP never runs out. -/
def drainLoop (post timeAt : Nat → Int) : Nat → Nat → DrainState → DrainState
  | _, 0, s => s
  | k, fuel + 1, s =>
    match rb_pop s.rb with
    | (none, _) => s
    | (some r, rb2) =>
      let sc := post k
      if sc = 200 then
        drainLoop post timeAt (k + 1) fuel ⟨rb2, timeAt k, s.sent + 1⟩
      else if 500 ≤ sc ∨ sc < 0 then
        ⟨rb_push rb2 r, s.lastIngestOk, s.sent⟩
      else if sc = 401 ∨ sc = 403 then
        drainLoop post timeAt (k + 1) fuel ⟨rb2, s.lastIngestOk, s.sent⟩
      else if 400 ≤ sc then
        drainLoop post timeAt (k + 1) fuel ⟨rb2, s.lastIngestOk, s.sent⟩
      else
        ⟨rb_push rb2 r, s.lastIngestOk, s.sent⟩

/-- Health-check period (HEALTH_PERIOD_US), in microseconds. -/
def HEALTH_PERIOD_US : Int := 60 * 1000000

/-- Staleness window (ALERT_WINDOW_US = 2 minutes), in microseconds. -/
def ALERT_WINDOW_US : Int := 2 * 60 * 1000000

/-- Step 3 of task_net: baseline s_last_ingest_ok_us to now at the first
evaluation after boot, then raise the alarm (and drive the LED) when the
last successful ingest is more than ALERT_WINDOW_US ago, and clear both
when it is not.  Returns (s_last_ingest_ok_us, s_alert_active, LED). -/
def alarm_step (now lastIngest : Int) (alert led : Bool) : Int × Bool × Bool :=
  let l2 := if lastIngest = 0 then now else lastIngest
  let overdue := now - l2 > ALERT_WINDOW_US
  if overdue ∧ alert = false then (l2, true, true)
  else if ¬ overdue ∧ alert = true then (l2, false, false)
  else (l2, alert, led)

/-- All mutable state task_net touches: the ring buffer, s_server_ok,
its local last_health_us, s_last_ingest_ok_us, s_alert_active, the alert
LED level, and the endpoint selection. -/
structure NetState where
  rb : RBState
  serverOk : Bool
  lastHealthUs : Int
  lastIngestOkUs : Int
  alertActive : Bool
  led : Bool
  sel : SelState

/-- Everything the environment decides during one wake of task_net: the
two esp_timer_get_time reads, the outcome of the health probe of the
active base, the outcome of the prefer-local probe, and the POST
outcomes and times of the drain loop. -/
structure WakeEnv where
  now : Int
  healthOutcome : HttpOutcome
  localOutcome : HttpOutcome
  post : Nat → Int
  postTime : Nat → Int
  now2 : Int

/-- One iteration of the task_net loop: (1) if at least
HEALTH_PERIOD_US elapsed since the last health check, probe the active
endpoint and run maybe_prefer_local_again, clearing the alert eagerly on
an unreachable-to-reachable transition; (2) if healthy, drain the
queue; (3) evaluate the staleness alarm. -/
def task_net_wake (e : WakeEnv) (st : NetState) : NetState :=
  let due := e.now - st.lastHealthUs ≥ HEALTH_PERIOD_US
  let ok := if due then try_health_once e.healthOutcome else st.serverOk
  let lastHealth := if due then e.now else st.lastHealthUs
  let sel :=
    if due then (maybe_prefer_local_again (try_health_once e.localOutcome) st.sel).1
    else st.sel
  let alert1 := if ok = true ∧ st.serverOk = false then false else st.alertActive
  let led1 := if ok = true ∧ st.serverOk = false then false else st.led
  let d :=
    if ok then drainLoop e.post e.postTime 0 RB_CAP ⟨st.rb, st.lastIngestOkUs, 0⟩
    else ⟨st.rb, st.lastIngestOkUs, 0⟩
  let a := alarm_step e.now2 d.lastIngestOk alert1 led1
  { rb := d.rb, serverOk := ok, lastHealthUs := lastHealth, lastIngestOkUs := a.1,
    alertActive := a.2.1, led := a.2.2, sel := sel }

/-- Concrete sample: a fault-free reading at 5 degrees. -/
def rA : Reading := ⟨5, 0, 100⟩

/-- Concrete sample: a fault-free reading at 6 degrees. -/
def rB : Reading := ⟨6, 0, 200⟩

/-- A concrete two-entry queue: rA (oldest) then rB. -/
def rbTwo : RBState :=
  { buf := fun i => if i = 0 then rA else if i = 1 then rB else ⟨0, 0, 0⟩,
    head := 2, tail := 0 }

/-- The queue state after popping rA from rbTwo. -/
def rbTwoPopped : RBState := (rb_pop rbTwo).2

/-- Seventeen pairwise distinct concrete readings. -/
def rs17 : List Reading := (List.range 17).map (fun n => ⟨(n : ℚ), 0, 0⟩)

/-- Sixteen pairwise distinct concrete readings. -/
def rs16 : List Reading := (List.range 16).map (fun n => ⟨(n : ℚ), 1, 5⟩)

theorem rb_length_toList (s : RBState) : (rb_toList s).length = rb_size s := by
  simp [rb_toList]

theorem rb_size_lt (s : RBState) : rb_size s < RB_CAP := by
  unfold rb_size RB_CAP; omega

theorem rb_valid_push (s : RBState) (r : Reading) (h : rb_valid s) :
    rb_valid (rb_push s r) := by
  obtain ⟨h1, h2⟩ := h
  unfold rb_valid rb_push RB_CAP at *
  constructor
  · simpa using Nat.mod_lt _ (by omega)
  · dsimp only
    split <;> omega

theorem rb_size_eq (s : RBState) : rb_size s = (s.head + 16 - s.tail) % 16 := rfl

theorem rb_toList_eq (s : RBState) :
    rb_toList s = (List.range (rb_size s)).map (fun i => s.buf ((s.tail + i) % 16)) := rfl

/-- Key simulation lemma: one rb_push acts on the abstract contents by
dropping the oldest entry when 15 slots are occupied (the 16-slot ring
keeps one slot free) and then appending the new reading. -/
theorem rb_toList_push (s : RBState) (r : Reading) (h1 : s.head < RB_CAP)
    (h2 : s.tail < RB_CAP) :
    rb_toList (rb_push s r) =
      (if rb_size s = RB_CAP - 1 then (rb_toList s).drop 1 else rb_toList s) ++ [r] := by
  have h16 : RB_CAP = 16 := rfl
  rw [h16] at h1 h2 ⊢
  have hbuf : ∀ i, (rb_push s r).buf i = if i = s.head then r else s.buf i :=
    fun i => rfl
  have hhead : (rb_push s r).head = (s.head + 1) % 16 := rfl
  by_cases hf : (s.head + 1) % 16 = s.tail
  · -- full case: the push drops the oldest entry
    have ht : (rb_push s r).tail = (s.tail + 1) % 16 := by
      simp [rb_push, RB_CAP, hf]
    have hs : rb_size s = 15 := by rw [rb_size_eq]; omega
    have hs' : rb_size (rb_push s r) = 15 := by
      rw [rb_size_eq, hhead, ht]; omega
    rw [if_pos (by omega : rb_size s = 16 - 1)]
    simp only [rb_toList_eq]
    rw [hs, hs', ht]
    have hR : List.range 15 = List.range 14 ++ [14] := by decide
    have hR' : List.range 15 = 0 :: (List.range 14).map Nat.succ := by decide
    conv_lhs => rw [hR, List.map_append]
    conv_rhs => rw [hR', List.map_cons, List.drop_one, List.tail_cons, List.map_map]
    congr 1
    · refine List.map_congr_left ?_
      intro i hi
      rw [List.mem_range] at hi
      have hne : ((s.tail + 1) % 16 + i) % 16 ≠ s.head := by omega
      have heq : ((s.tail + 1) % 16 + i) % 16 = (s.tail + Nat.succ i) % 16 := by omega
      simp only [Function.comp_apply]
      rw [hbuf, if_neg hne, heq]
    · have hidx : ((s.tail + 1) % 16 + 14) % 16 = s.head := by omega
      rw [List.map_cons, List.map_nil, hbuf, hidx, if_pos rfl]
  · -- non-full case: the push only appends
    have ht : (rb_push s r).tail = s.tail := by
      simp [rb_push, RB_CAP, hf]
    have hs14 : rb_size s ≤ 14 := by rw [rb_size_eq]; omega
    have hs' : rb_size (rb_push s r) = rb_size s + 1 := by
      rw [rb_size_eq, rb_size_eq, hhead, ht]; omega
    rw [if_neg (by omega : ¬ rb_size s = 16 - 1)]
    simp only [rb_toList_eq]
    rw [hs', ht, List.range_succ, List.map_append]
    congr 1
    · refine List.map_congr_left ?_
      intro i hi
      rw [List.mem_range, rb_size_eq] at hi
      have hne : (s.tail + i) % 16 ≠ s.head := by omega
      rw [hbuf, if_neg hne]
    · have hidx : (s.tail + rb_size s) % 16 = s.head := by rw [rb_size_eq]; omega
      rw [List.map_cons, List.map_nil, hbuf, hidx, if_pos rfl]

theorem rb_toList_pushAll (rs : List Reading) :
    ∀ s : RBState, rb_valid s →
      rb_toList (rb_pushAll s rs) = List.foldl absPush (rb_toList s) rs := by
  induction rs with
  | nil => intro s _; rfl
  | cons r rs ih =>
    intro s hv
    have hv' := rb_valid_push s r hv
    have hstep := rb_toList_push s r hv.1 hv.2
    have hcap : RB_CAP - 1 = 15 := rfl
    have hlen : (rb_toList s).length = rb_size s := rb_length_toList s
    have : rb_toList (rb_push s r) = absPush (rb_toList s) r := by
      rw [hstep, absPush, hlen, hcap]
    calc rb_toList (rb_pushAll s (r :: rs))
        = rb_toList (rb_pushAll (rb_push s r) rs) := rfl
      _ = List.foldl absPush (rb_toList (rb_push s r)) rs := ih _ hv'
      _ = List.foldl absPush (absPush (rb_toList s) r) rs := by rw [this]
      _ = List.foldl absPush (rb_toList s) (r :: rs) := rfl

theorem lastN_cons_of_le (n : Nat) (a : Reading) (l : List Reading) (h : n ≤ l.length) :
    lastN n (a :: l) = lastN n l := by
  unfold lastN
  have : (a :: l).length - n = (l.length - n) + 1 := by
    simp only [List.length_cons]; omega
  rw [this, List.drop_succ_cons]

theorem foldl_absPush_eq (rs : List Reading) :
    ∀ q : List Reading, q.length ≤ 15 → 15 ≤ q.length + rs.length →
      List.foldl absPush q rs = lastN 15 (q ++ rs) := by
  induction rs with
  | nil =>
    intro q h1 h2
    simp only [List.foldl_nil, List.append_nil, lastN]
    have : q.length - 15 = 0 := by omega
    rw [this, List.drop_zero]
  | cons r rs ih =>
    intro q h1 h2
    simp only [List.length_cons] at h2
    by_cases hfull : q.length = 15
    · obtain ⟨a, q', rfl⟩ : ∃ a q', q = a :: q' := by
        cases q with
        | nil => simp at hfull
        | cons a q' => exact ⟨a, q', rfl⟩
      have hlq' : q'.length = 14 := by simpa using hfull
      have step : List.foldl absPush (a :: q') (r :: rs) =
          List.foldl absPush (q' ++ [r]) rs := by
        simp only [List.foldl_cons, absPush, if_pos hfull, List.drop_one,
          List.tail_cons]
      have h1' : (q' ++ [r]).length ≤ 15 := by
        simp only [List.length_append, List.length_cons, List.length_nil]; omega
      have h2' : 15 ≤ (q' ++ [r]).length + rs.length := by
        simp only [List.length_append, List.length_cons, List.length_nil]; omega
      rw [step, ih _ h1' h2']
      have e1 : (q' ++ [r]) ++ rs = q' ++ r :: rs := by simp
      have e2 : (a :: q') ++ r :: rs = a :: (q' ++ r :: rs) := rfl
      rw [e1, e2, lastN_cons_of_le]
      simp only [List.length_append, List.length_cons]
      omega
    · have step : List.foldl absPush q (r :: rs) =
          List.foldl absPush (q ++ [r]) rs := by
        simp only [List.foldl_cons, absPush, if_neg hfull]
      have h1' : (q ++ [r]).length ≤ 15 := by
        simp only [List.length_append, List.length_cons, List.length_nil]; omega
      have h2' : 15 ≤ (q ++ [r]).length + rs.length := by
        simp only [List.length_append, List.length_cons, List.length_nil]; omega
      rw [step, ih _ h1' h2']
      have e1 : (q ++ [r]) ++ rs = q ++ r :: rs := by simp
      rw [e1]

theorem rb_pop_some (s : RBState) (r : Reading) (s' : RBState)
    (hv : rb_valid s) (h : rb_pop s = (some r, s')) :
    rb_toList s = r :: rb_toList s' ∧ rb_size s' + 1 = rb_size s ∧ rb_valid s' := by
  obtain ⟨hv1, hv2⟩ := hv
  have h16 : RB_CAP = 16 := rfl
  rw [h16] at hv1 hv2
  by_cases hne : s.tail ≠ s.head
  · rw [rb_pop, if_pos hne] at h
    have h1 : s.buf s.tail = r := by
      have := congrArg Prod.fst h
      simpa using this
    have h2 : s' = { s with tail := (s.tail + 1) % RB_CAP } := by
      have := congrArg Prod.snd h
      simpa using this.symm
    subst h2
    have hsz : rb_size s = (s.head + 16 - s.tail) % 16 := rb_size_eq s
    have hsz' : rb_size { s with tail := (s.tail + 1) % RB_CAP } =
        (s.head + 16 - (s.tail + 1) % 16) % 16 := rb_size_eq _
    have hpos : 1 ≤ rb_size s := by rw [hsz]; omega
    have hdec : rb_size { s with tail := (s.tail + 1) % RB_CAP } + 1 = rb_size s := by
      rw [hsz, hsz']; omega
    refine ⟨?_, hdec, ⟨hv1, ?_⟩⟩
    · rw [rb_toList_eq, rb_toList_eq]
      obtain ⟨m, hm⟩ : ∃ m, rb_size s = m + 1 := ⟨rb_size s - 1, by omega⟩
      have hm' : rb_size { s with tail := (s.tail + 1) % RB_CAP } = m := by omega
      rw [hm, hm', List.range_succ_eq_map, List.map_cons, List.map_map]
      congr 1
      · have : (s.tail + 0) % 16 = s.tail := by omega
        rw [this, h1]
      · refine List.map_congr_left ?_
        intro i hi
        rw [List.mem_range] at hi
        have heq : ((s.tail + 1) % 16 + i) % 16 = (s.tail + Nat.succ i) % 16 := by
          omega
        simp only [Function.comp_apply, h16]
        rw [heq]
    · have : (s.tail + 1) % 16 < 16 := by omega
      exact this
  · rw [rb_pop, if_neg hne] at h
    have := congrArg Prod.fst h
    simp at this

theorem runGood_seeded (ts : List ℚ) :
    ∀ f : ℚ, runGood ⟨true, f⟩ ts = (⟨true, emaFold f ts⟩, emaScan f ts) := by
  induction ts with
  | nil => intro f; simp [runGood, emaFold, emaScan]
  | cons t ts ih =>
    intro f
    have hsm : sensor_smooth ⟨true, f⟩ t 0 =
        (⟨true, (1 / 4) * t + (3 / 4) * f⟩, (1 / 4) * t + (3 / 4) * f) := by
      simp only [sensor_smooth, SMOOTH_ALPHA]
      norm_num
    simp only [runGood, hsm, ih, emaFold, emaScan, List.foldl_cons]

/-- C4: feeding fault-free readings t1..tn to the sample producer, the
smoothing state is seeded at t1, every delivered temperature is the
current filtered value (the successive EMA values with factor 1/4), and
the filtered value after tn is the EMA recurrence folded over t2..tn
from seed t1. -/
theorem sensor_ema_correct (t1 : ℚ) (rest : List ℚ) :
    runGood ⟨false, 0⟩ (t1 :: rest) =
      (⟨true, emaFold t1 rest⟩, t1 :: emaScan t1 rest) := by
  have hseed : sensor_smooth ⟨false, 0⟩ t1 0 = (⟨true, t1⟩, t1) := by
    simp [sensor_smooth]
  simp only [runGood, hseed, runGood_seeded]

/-- C5: a faulted reading (sr not 0) is enqueued with the raw
temperature, and the smoothing state (has_value and filtered_c) is
exactly what it was before. -/
theorem sensor_fault_frame (st : SmState) (rb : RBState) (t : ℚ) (sr : Nat)
    (ts : Int) (h : sr ≠ 0) :
    task_sensor_step st rb t sr ts = (st, rb_push rb ⟨t, sr, ts⟩) := by
  simp [task_sensor_step, sensor_smooth, h]

theorem sensor_fault_frame_witness :
    (1 : Nat) ≠ 0 ∧
    task_sensor_step ⟨true, 5⟩ rbInit 7 1 99 = (⟨true, 5⟩, rb_push rbInit ⟨7, 1, 99⟩) :=
  ⟨by decide, sensor_fault_frame ⟨true, 5⟩ rbInit 7 1 99 (by decide)⟩

/-- C8: a health probe reports reachable exactly when the HTTP round
trip completed with status 200 or 503; any other status, a
non-completing call, or a client-init failure reports unreachable. -/
theorem health_reachable_iff (o : HttpOutcome) :
    try_health_once o = true ↔
      ∃ sc : Int, o = .status sc ∧ (sc = 200 ∨ sc = 503) := by
  cases o with
  | initFail => simp [try_health_once]
  | performErr => simp [try_health_once]
  | status sc => simp [try_health_once]

/-- C6: startup endpoint selection: Local reachable selects Local with
plain transport; Local down but Cloud reachable selects Cloud with TLS;
neither reachable defaults to Cloud with TLS and s_server_ok false. -/
theorem startup_selection :
    startup_select true true = (⟨some .urlLocal, false⟩, true) ∧
    startup_select true false = (⟨some .urlLocal, false⟩, true) ∧
    startup_select false true = (⟨some .urlCloud, true⟩, true) ∧
    startup_select false false = (⟨some .urlCloud, true⟩, false) := by
  decide

/-- C7: the prefer-local hook leaves the selection untouched (and issues
no probe) on health cycles whose count is not a multiple of 5 and
whenever the active base is already Local; on every 5th cycle with the
base on Cloud it probes Local and, if Local is reachable, switches to
Local with plain transport; starting from Cloud, the switch happens on
exactly the 5th health cycle. -/
theorem prefer_local_policy :
    (∀ (st : SelState) (lp : Bool), (st.counter + 1) % 5 ≠ 0 →
      maybe_prefer_local_again lp st = (⟨st.base, st.useTls, st.counter + 1⟩, false)) ∧
    (∀ st : SelState, st.base = .urlCloud → (st.counter + 1) % 5 = 0 →
      maybe_prefer_local_again true st = (⟨.urlLocal, false, st.counter + 1⟩, true)) ∧
    (∀ (st : SelState) (lp : Bool), st.base = .urlLocal →
      maybe_prefer_local_again lp st = (⟨.urlLocal, st.useTls, st.counter + 1⟩, false)) ∧
    (∀ n : Nat, n < 5 → iterPrefer true n ⟨.urlCloud, true, 0⟩ = ⟨.urlCloud, true, n⟩) ∧
    iterPrefer true 5 ⟨.urlCloud, true, 0⟩ = ⟨.urlLocal, false, 5⟩ := by
  refine ⟨?_, ?_, ?_, ?_, by decide⟩
  · intro st lp h
    simp [maybe_prefer_local_again, h]
  · intro st hb h
    simp [maybe_prefer_local_again, h, hb]
  · intro st lp hb
    rcases st with ⟨b, tls, c⟩
    cases hb
    by_cases h : (c + 1) % 5 = 0 <;> simp [maybe_prefer_local_again, h]
  · intro n h
    interval_cases n <;> decide

theorem prefer_local_policy_witness :
    ((0 + 1) % 5 ≠ 0 ∧
      maybe_prefer_local_again false ⟨.urlCloud, true, 0⟩ = (⟨.urlCloud, true, 1⟩, false)) ∧
    ((4 + 1) % 5 = 0 ∧
      maybe_prefer_local_again true ⟨.urlCloud, true, 4⟩ = (⟨.urlLocal, false, 5⟩, true)) ∧
    maybe_prefer_local_again true ⟨.urlLocal, false, 7⟩ = (⟨.urlLocal, false, 8⟩, false) ∧
    (3 < 5 ∧ iterPrefer true 3 ⟨.urlCloud, true, 0⟩ = ⟨.urlCloud, true, 3⟩) :=
  ⟨⟨by decide, prefer_local_policy.1 ⟨.urlCloud, true, 0⟩ false (by decide)⟩,
   ⟨by decide, prefer_local_policy.2.1 ⟨.urlCloud, true, 4⟩ rfl (by decide)⟩,
   prefer_local_policy.2.2.1 ⟨.urlLocal, false, 7⟩ true rfl,
   ⟨by decide, prefer_local_policy.2.2.2.1 3 (by decide)⟩⟩

/-- C3: the alarm evaluation baselines s_last_ingest_ok_us to now at the
first evaluation with no successful delivery ever; afterwards the alarm
is Active exactly when now - last_success_at strictly exceeds the
120-second window and Inactive when it is at or below it, and the alert
output follows every transition (given the LED mirrors the alarm
state, which the code maintains). -/
theorem alarm_boundary (now T : Int) (alert led : Bool) (h : led = alert) :
    (T = 0 → alarm_step now 0 alert led = (now, false, false)) ∧
    (T ≠ 0 → now - T > ALERT_WINDOW_US → alarm_step now T alert led = (T, true, true)) ∧
    (T ≠ 0 → now - T ≤ ALERT_WINDOW_US → alarm_step now T alert led = (T, false, false)) := by
  subst h
  refine ⟨?_, ?_, ?_⟩
  · intro h0
    cases led <;> simp [alarm_step, ALERT_WINDOW_US]
  · intro hT hgt
    cases led <;> simp [alarm_step, hT, hgt]
  · intro hT hle
    have hnot : ¬ now - T > ALERT_WINDOW_US := by omega
    cases led <;> simp [alarm_step, hT, hnot]

theorem alarm_boundary_witness :
    ((1000 : Int) ≠ 0 ∧ (121001000 : Int) - 1000 > ALERT_WINDOW_US ∧
      alarm_step 121001000 1000 false false = (1000, true, true)) ∧
    ((1000 : Int) ≠ 0 ∧ (119001000 : Int) - 1000 ≤ ALERT_WINDOW_US ∧
      alarm_step 119001000 1000 false false = (1000, false, false)) ∧
    alarm_step 424242 0 false false = (424242, false, false) :=
  ⟨⟨by decide, by decide,
    (alarm_boundary 121001000 1000 false false rfl).2.1 (by decide) (by decide)⟩,
   ⟨by decide, by decide,
    (alarm_boundary 119001000 1000 false false rfl).2.2 (by decide) (by decide)⟩,
   (alarm_boundary 424242 0 false false rfl).1 rfl⟩

/-- C10: after one full wake of task_net, s_server_ok is the health
probe's verdict when the 60-second health interval had elapsed and is
otherwise exactly the value it had at the start of the wake — for every
possible outcome of every delivery attempt, so the drain step (and any
failed delivery in it) never changes the reachable flag. -/
theorem serverOk_only_health (e : WakeEnv) (st : NetState) :
    (task_net_wake e st).serverOk =
      if e.now - st.lastHealthUs ≥ HEALTH_PERIOD_US then try_health_once e.healthOutcome
      else st.serverOk := by
  by_cases h : e.now - st.lastHealthUs ≥ HEALTH_PERIOD_US <;>
    simp [task_net_wake, h]

/-- C9: a delivery attempt answered 401, 403, or any other 4xx status
drops the popped sample (the drain continues on the remaining queue and
never re-inserts it) without touching s_last_ingest_ok_us; a 200
consumes the sample and records the success time; and if no attempt of
the cycle returns 200, s_last_ingest_ok_us is unchanged by the whole
drain. -/
theorem drain_4xx_drop (post timeAt : Nat → Int) :
    (∀ (k fuel : Nat) (s : DrainState) (r : Reading) (rb2 : RBState),
      rb_pop s.rb = (some r, rb2) → 400 ≤ post k → post k < 500 →
        drainLoop post timeAt k (fuel + 1) s =
          drainLoop post timeAt (k + 1) fuel ⟨rb2, s.lastIngestOk, s.sent⟩) ∧
    (∀ (k fuel : Nat) (s : DrainState) (r : Reading) (rb2 : RBState),
      rb_pop s.rb = (some r, rb2) → post k = 200 →
        drainLoop post timeAt k (fuel + 1) s =
          drainLoop post timeAt (k + 1) fuel ⟨rb2, timeAt k, s.sent + 1⟩) ∧
    (∀ (k fuel : Nat) (s : DrainState), (∀ j, post j ≠ 200) →
      (drainLoop post timeAt k fuel s).lastIngestOk = s.lastIngestOk) := by
  refine ⟨?_, ?_, ?_⟩
  · intro k fuel s r rb2 hpop h4 h5
    have h200 : ¬ post k = 200 := by omega
    have hsrv : ¬ (500 ≤ post k ∨ post k < 0) := by omega
    simp only [drainLoop, hpop]
    rw [if_neg h200, if_neg hsrv]
    by_cases h43 : post k = 401 ∨ post k = 403
    · rw [if_pos h43]
    · rw [if_neg h43, if_pos (by omega : (400 : Int) ≤ post k)]
  · intro k fuel s r rb2 hpop h200
    simp only [drainLoop, hpop]
    rw [if_pos h200]
  · intro k fuel s hno
    induction fuel generalizing k s with
    | zero => rfl
    | succ fuel ih =>
      simp only [drainLoop]
      rcases hp : rb_pop s.rb with ⟨o, rb2⟩
      cases o with
      | none => rfl
      | some r =>
        dsimp only
        rw [if_neg (hno k)]
        by_cases h1 : 500 ≤ post k ∨ post k < 0
        · rw [if_pos h1]
        · rw [if_neg h1]
          by_cases h2 : post k = 401 ∨ post k = 403
          · rw [if_pos h2]
            exact ih (k + 1) ⟨rb2, s.lastIngestOk, s.sent⟩
          · rw [if_neg h2]
            by_cases h3 : (400 : Int) ≤ post k
            · rw [if_pos h3]
              exact ih (k + 1) ⟨rb2, s.lastIngestOk, s.sent⟩
            · rw [if_neg h3]

theorem drain_4xx_drop_witness :
    ((400 : Int) ≤ 403 ∧ (403 : Int) < 500) ∧
    drainLoop (fun _ => 403) (fun _ => 0) 0 3 ⟨rbTwo, 7, 2⟩ =
      drainLoop (fun _ => 403) (fun _ => 0) 1 2 ⟨rbTwoPopped, 7, 2⟩ ∧
    (drainLoop (fun _ => 403) (fun _ => 0) 0 3 ⟨rbTwo, 7, 2⟩).lastIngestOk = 7 :=
  ⟨⟨by norm_num, by norm_num⟩,
   (drain_4xx_drop (fun _ => 403) (fun _ => 0)).1 0 2 ⟨rbTwo, 7, 2⟩ rA rbTwoPopped
     rfl (by norm_num) (by norm_num),
   (drain_4xx_drop (fun _ => 403) (fun _ => 0)).2.2 0 3 ⟨rbTwo, 7, 2⟩
     (fun _ => by norm_num)⟩

/-- C1 counterexample: with queue [rA, rB] and every delivery attempt
answering 500, the drain pops rA, fails, and stops — but afterwards the
next sample popped from the queue is rB, not the failed sample rA, so
the failed sample is not at the front of the queue as the claim
states. -/
theorem requeue_front_counterexample :
    (rb_pop rbTwo).1 = some rA ∧
    (rb_pop (drainLoop (fun _ => 500) (fun _ => 0) 0 RB_CAP ⟨rbTwo, 7, 0⟩).rb).1 =
      some rB ∧
    rB ≠ rA := by
  decide

/-- C1 (amended): when a delivery attempt returns a 500-class status or
does not complete (status < 0), the popped sample is re-inserted with
rb_push at the BACK of the queue (it stays queued, behind the remaining
entries, so it is the next one popped only when no other entry remains),
the remaining entries keep their relative order, and no further pops
occur in that cycle. -/
theorem drain_5xx_requeue_back (post timeAt : Nat → Int) (k fuel : Nat)
    (s : DrainState) (r : Reading) (rb2 : RBState)
    (hpop : rb_pop s.rb = (some r, rb2)) (hbad : 500 ≤ post k ∨ post k < 0)
    (hv : rb_valid s.rb) :
    drainLoop post timeAt k (fuel + 1) s = ⟨rb_push rb2 r, s.lastIngestOk, s.sent⟩ ∧
    rb_toList s.rb = r :: rb_toList rb2 ∧
    rb_toList (rb_push rb2 r) = rb_toList rb2 ++ [r] := by
  have hfacts := rb_pop_some s.rb r rb2 hv hpop
  refine ⟨?_, hfacts.1, ?_⟩
  · have h200 : ¬ post k = 200 := by omega
    simp only [drainLoop, hpop]
    rw [if_neg h200, if_pos hbad]
  · have hv2 := hfacts.2.2
    have hsz : ¬ rb_size rb2 = RB_CAP - 1 := by
      have hlt := rb_size_lt s.rb
      have hcap : RB_CAP = 16 := rfl
      have := hfacts.2.1
      omega
    rw [rb_toList_push rb2 r hv2.1 hv2.2, if_neg hsz]

theorem drain_5xx_requeue_back_witness :
    rb_pop rbTwo = (some rA, rbTwoPopped) ∧
    ((500 : Int) ≤ 500 ∨ (500 : Int) < 0) ∧ rb_valid rbTwo ∧
    (drainLoop (fun _ => 500) (fun _ => 0) 0 16 ⟨rbTwo, 7, 0⟩ =
        ⟨rb_push rbTwoPopped rA, 7, 0⟩ ∧
      rb_toList rbTwo = rA :: rb_toList rbTwoPopped ∧
      rb_toList (rb_push rbTwoPopped rA) = rb_toList rbTwoPopped ++ [rA]) :=
  ⟨rfl, Or.inl (by norm_num), by decide,
   drain_5xx_requeue_back (fun _ => 500) (fun _ => 0) 0 15 ⟨rbTwo, 7, 0⟩ rA
     rbTwoPopped rfl (Or.inl (by norm_num)) (by decide)⟩

/-- C2 counterexample: after pushing 17 distinct readings into the empty
queue, the queue holds 15 entries, not the 16 most recent ones the claim
asks for. -/
theorem queue_sixteen_counterexample :
    rb_toList (rb_pushAll rbInit rs17) ≠ rs17.drop 1 ∧
    (rb_toList (rb_pushAll rbInit rs17)).length = 15 := by
  decide

/-- C2 (amended): the ring keeps one of its 16 slots free, so the
effective capacity is 15: any sequence of at least 15 pushes into the
empty queue leaves exactly the 15 most recent samples in their original
relative order (every push succeeds; a push onto a full queue evicts
exactly the oldest entry). -/
theorem queue_keeps_last_fifteen :
    (∀ rs : List Reading, 15 ≤ rs.length →
      rb_toList (rb_pushAll rbInit rs) = rs.drop (rs.length - 15)) ∧
    (∀ (s : RBState) (r : Reading), rb_valid s → rb_size s = 15 →
      rb_toList (rb_push s r) = (rb_toList s).drop 1 ++ [r]) := by
  constructor
  · intro rs h
    have hv : rb_valid rbInit := by decide
    have h0 : rb_toList rbInit = [] := rfl
    rw [rb_toList_pushAll rs rbInit hv, h0,
      foldl_absPush_eq rs [] (by simp) (by simpa using h)]
    simp [lastN]
  · intro s r hv hs
    have hs' : rb_size s = RB_CAP - 1 := hs
    rw [rb_toList_push s r hv.1 hv.2, if_pos hs']

theorem queue_keeps_last_fifteen_witness :
    (15 ≤ rs16.length ∧
      rb_toList (rb_pushAll rbInit rs16) = rs16.drop (rs16.length - 15)) ∧
    (rb_valid (rb_pushAll rbInit rs16) ∧ rb_size (rb_pushAll rbInit rs16) = 15 ∧
      rb_toList (rb_push (rb_pushAll rbInit rs16) rA) =
        (rb_toList (rb_pushAll rbInit rs16)).drop 1 ++ [rA]) :=
  ⟨⟨by decide, queue_keeps_last_fifteen.1 rs16 (by decide)⟩,
   ⟨by decide, by decide,
    queue_keeps_last_fifteen.2 (rb_pushAll rbInit rs16) rA (by decide) (by decide)⟩⟩
